import Mathlib

/-!
Shallow embedding of the quantitative risk-analytics core of the
stock-portfolio application: `utils/risk_metrics.py`, `utils/portfolio.py`
and `utils/simulation.py`.

Modelling conventions:
* Python floats are embedded as exact rationals (`ℚ`), so identities that
  hold in exact arithmetic are proved exactly; a float-tolerance claim is
  settled by the exact identity.
* A pandas price `DataFrame` is a `List (List ℚ)`: the outer list runs over
  the asset columns, each inner list is that asset's price series, ordered
  by date.  A rectangular frame is expressed by the hypothesis that every
  column has the same length.
* A quotes dict is an association list `List (String × ℚ)`.
* Python exceptions are `Except PyErr`; `PyErr.valueError` is the untyped
  `ValueError` that numpy/pandas raise, while the remaining constructors
  name the typed error taxonomy that the specification postulates (no such
  class exists anywhere in the repository's code).
* The numpy global random generator is an explicit natural-number state
  threaded through the simulation functions; `np.random.seed` overwrites
  the incoming state.  The Gaussian samplers themselves are external
  library code, modelled as deterministic functions of the seeded state
  and the fitted distribution parameters (the scale parameter is carried
  as the sample variance, the square of the standard deviation the Python
  code passes, to stay inside `ℚ`).
-/

/-- Error kinds: `valueError` is what numpy/pandas actually raise;
`indexError` is numpy's error on an empty percentile; the other
constructors model the typed error taxonomy named by the specification,
which has no counterpart in the repository's code. -/
inductive PyErr where
  | valueError
  | indexError
  | dimensionMismatchError
  | insufficientDataError
  | invalidParameterError
  deriving DecidableEq, Repr

/-- Embedding of `prices.pct_change().dropna()` on one column with no
missing values: simple returns `p_t / p_{t-1} - 1`, one row shorter than
the input. -/
def pctChange (col : List ℚ) : List ℚ :=
  List.zipWith (fun prev cur => cur / prev - 1) col col.tail

/-- Embedding of `Series.mean()`: sum divided by length. -/
def listMean (l : List ℚ) : ℚ := l.sum / (l.length : ℚ)

/-- Embedding of `np.dot` on two 1-d arrays of equal length. -/
def dotProduct (a b : List ℚ) : ℚ := (List.zipWith (fun x y => x * y) a b).sum

/-- Embedding of the pandas sample covariance (`ddof = 1`) of two equal
length series, as used by `returns.cov()`. -/
def covPair (x y : List ℚ) : ℚ :=
  (List.zipWith (fun a b => (a - listMean x) * (b - listMean y)) x y).sum
    / ((x.length : ℚ) - 1)

/-- Embedding of `returns.cov().values` for `returns = prices.pct_change().dropna()`:
the square matrix of pairwise sample covariances of the return columns. -/
def covMatrixOf (prices : List (List ℚ)) : List (List ℚ) :=
  let ret := prices.map pctChange
  ret.map (fun x => ret.map (fun y => covPair x y))

/-- Embedding of `np.percentile(l, q)` with the default linear
interpolation: sort ascending, locate `pos = q/100 * (n-1)` and
interpolate between the neighbouring order statistics. -/
def percentileLinear (l : List ℚ) (q : ℚ) : ℚ :=
  let s := List.insertionSort (fun a b => a ≤ b) l
  let pos := q / 100 * ((l.length : ℚ) - 1)
  let i := (⌊pos⌋).toNat
  let frac := pos - ((⌊pos⌋ : ℤ) : ℚ)
  let lo := s.getD i 0
  let hi := s.getD (i + 1) lo
  lo + frac * (hi - lo)

/-! Embedding of `utils/risk_metrics.py`. -/

/-- Embedding of `calculate_portfolio_returns` (risk_metrics.py lines 11-33):
`returns = prices.pct_change().dropna()` followed by
`(returns * weights).sum(axis=1)`.  Row `t` of the result is the weighted
sum of the per-asset returns at `t`; pandas raises an untyped `ValueError`
when the weight vector's length differs from the column count. -/
def calculate_portfolio_returns (prices : List (List ℚ)) (weights : List ℚ) :
    Except PyErr (List ℚ) :=
  let ret := prices.map pctChange
  if weights.length = prices.length then
    Except.ok ((List.range ((prices.headD []).length - 1)).map
      (fun t => dotProduct weights (ret.map (fun c => c.getD t 0))))
  else Except.error PyErr.valueError

/-- Embedding of `calculate_var` (risk_metrics.py lines 36-55):
`np.percentile(returns, (1 - confidence_level) * 100)`, with numpy's own
failure modes (empty input, percentile outside `[0, 100]`) and no
validation of the confidence level itself. -/
def calculate_var (returns : List ℚ) (confidence_level : ℚ) : Except PyErr ℚ :=
  let q := (1 - confidence_level) * 100
  if returns = [] then Except.error PyErr.indexError
  else if q < 0 ∨ 100 < q then Except.error PyErr.valueError
  else Except.ok (percentileLinear returns q)

/-- Embedding of `calculate_cvar` (risk_metrics.py lines 58-82): the mean
of the returns `≤` the VaR threshold.  (pandas would yield `NaN` on an
empty selection; for a nonempty series the selection is provably nonempty,
so that case is unreachable under the hypotheses used here.) -/
def calculate_cvar (returns : List ℚ) (confidence_level : ℚ) : Except PyErr ℚ :=
  match calculate_var returns confidence_level with
  | Except.error e => Except.error e
  | Except.ok var => Except.ok (listMean (returns.filter (fun x => decide (x ≤ var))))

/-! Embedding of `utils/portfolio.py`. -/

/-- Embedding of the holding dict built by `Portfolio.add_holding`. -/
structure Holding where
  symbol : String
  shares : ℚ
  buy_price : ℚ
  invested_value : ℚ
  deriving DecidableEq, Repr

/-- Embedding of `Portfolio.add_holding` (portfolio.py lines 21-40): append
a holding with derived `invested_value = shares * buy_price`. -/
def add_holding (holdings : List Holding) (symbol : String) (shares buy_price : ℚ) :
    List Holding :=
  holdings ++ [⟨symbol, shares, buy_price, shares * buy_price⟩]

/-- Embedding of `Portfolio.remove_holding` (portfolio.py lines 42-52): pop
the holding at `index` only when `0 <= index < len(holdings)`, otherwise do
nothing.  The index is an integer, as in Python. -/
def remove_holding (holdings : List Holding) (index : ℤ) : List Holding :=
  if 0 ≤ index ∧ index < (holdings.length : ℤ) then
    holdings.eraseIdx index.toNat
  else holdings

/-- Market value a single holding contributes inside
`Portfolio.calculate_current_value`: `shares * price` when the symbol is
quoted, nothing otherwise. -/
def holdingValue (quotes : List (String × ℚ)) (h : Holding) : ℚ :=
  match List.lookup h.symbol quotes with
  | some p => h.shares * p
  | none => 0

/-- Embedding of `Portfolio.calculate_current_value` (portfolio.py lines
76-96): total of `shares * price` over the holdings whose symbol is in the
quotes dict. -/
def calculate_current_value (holdings : List Holding) (quotes : List (String × ℚ)) : ℚ :=
  (holdings.map (holdingValue quotes)).sum

/-- Embedding of `Portfolio.calculate_weights` (portfolio.py lines 98-127):
an all-zero vector when the total value is zero, otherwise one entry per
holding, `value / total` for quoted symbols and `0.0` for missing ones. -/
def calculate_weights (holdings : List Holding) (quotes : List (String × ℚ)) : List ℚ :=
  let total_value := calculate_current_value holdings quotes
  if total_value = 0 then List.replicate holdings.length 0
  else holdings.map (fun h =>
    match List.lookup h.symbol quotes with
    | some p => h.shares * p / total_value
    | none => 0)

/-- Marginal contribution vector `np.dot(cov_matrix, weights)` of
`calculate_risk_contribution`. -/
def marginalContrib (prices : List (List ℚ)) (weights : List ℚ) : List ℚ :=
  (covMatrixOf prices).map (fun row => dotProduct row weights)

/-- Portfolio variance `np.dot(weights, np.dot(cov_matrix, weights))` of
`calculate_risk_contribution`. -/
def portfolioVariance (prices : List (List ℚ)) (weights : List ℚ) : ℚ :=
  dotProduct weights (marginalContrib prices weights)

/-- Embedding of `calculate_risk_contribution` (portfolio.py lines 226-262):
component risks `w_i * (Σw)_i` scaled to percentages of the portfolio
variance.  The function performs no validation of its own: a weight vector
whose length differs from the asset count makes `np.dot(cov_matrix, weights)`
raise numpy's untyped `ValueError` (the `k × k` covariance matrix can only
be multiplied with a length-`k` vector). -/
def calculate_risk_contribution (prices : List (List ℚ)) (weights : List ℚ) :
    Except PyErr (List ℚ) :=
  if weights.length = prices.length then
    let marginal := marginalContrib prices weights
    let variance := portfolioVariance prices weights
    Except.ok ((List.zipWith (fun w m => w * m) weights marginal).map
      (fun c => c / variance * 100))
  else Except.error PyErr.valueError

/-! Embedding of `utils/simulation.py` and the random-generator model. -/

/-- Modelled: one step of the numpy global generator, as a linear
congruential step (the precise update is irrelevant to every claim; only
that it is a deterministic function of the state matters). -/
def lcg (s : ℕ) : ℕ := (1103515245 * s + 12345) % 2147483648

/-- Modelled: a rational deviate read off a generator state. -/
def lcgDraw (s : ℕ) : ℚ := ((s % 2001 : ℕ) : ℚ) / 1000 - 1

/-- Modelled: `np.random.seed(seed)` — the state the global generator is
set to, a function of the seed alone. -/
def npSeed (seed : ℕ) : ℕ := lcg (seed + 1)

/-- Modelled: one multivariate-normal draw (one simulated day): one deviate
per asset, scaled by the asset's mean and its covariance row. -/
def mvnVec : List (ℚ × List ℚ) → ℕ → List ℚ × ℕ
  | [], s => ([], s)
  | mc :: rest, s =>
      let s1 := lcg s
      let (vs, s2) := mvnVec rest s1
      ((mc.1 + mc.2.sum * lcgDraw s1) :: vs, s2)

/-- Modelled: `horizon_days` successive multivariate-normal draws. -/
def mvnDay (params : List (ℚ × List ℚ)) : ℕ → ℕ → List (List ℚ) × ℕ
  | 0, s => ([], s)
  | h + 1, s =>
      let (v, s1) := mvnVec params s
      let (vs, s2) := mvnDay params h s1
      (v :: vs, s2)

/-- Modelled: the full `(n_simulations × horizon_days × n_assets)` grid of
`np.random.multivariate_normal(mean, cov, size=(n, h))`. -/
def mvnSample (params : List (ℚ × List ℚ)) : ℕ → ℕ → ℕ → List (List (List ℚ)) × ℕ
  | 0, _, s => ([], s)
  | n + 1, h, s =>
      let (m, s1) := mvnDay params h s
      let (ms, s2) := mvnSample params n h s1
      (m :: ms, s2)

/-- Modelled: `np.random.multivariate_normal` on the explicit generator
state, deterministic in the state and the fitted parameters. -/
def npMultivariateNormal (state : ℕ) (mean : List ℚ) (cov : List (List ℚ))
    (n h : ℕ) : List (List (List ℚ)) × ℕ :=
  mvnSample (mean.zip cov) n h state

/-- Embedding of `simulate_portfolio_outcomes` (simulation.py lines 12-68),
with the numpy global generator threaded explicitly: the incoming state `g`
is immediately overwritten by `np.random.seed(random_seed)`; the function
then fits the mean vector and covariance of the historical returns, draws
the simulation grid, projects to portfolio returns with `np.dot(·, weights)`
(numpy's `ValueError` when the length of `weights` differs from the asset
count) and compounds `current_value * Π (1 + r_t)` per simulation. -/
def simulate_portfolio_outcomes (g : ℕ) (prices : List (List ℚ)) (weights : List ℚ)
    (current_value : ℚ) (horizon_days n_simulations random_seed : ℕ) :
    Except PyErr (List ℚ) × ℕ :=
  let g0 := npSeed random_seed
  let ret := prices.map pctChange
  let mean_returns := ret.map listMean
  let cov := ret.map (fun x => ret.map (fun y => covPair x y))
  let (simulated, g1) := npMultivariateNormal g0 mean_returns cov n_simulations horizon_days
  if weights.length = prices.length then
    let portfolio_returns := simulated.map (fun day_vecs =>
      day_vecs.map (fun r => dotProduct r weights))
    (Except.ok (portfolio_returns.map (fun path =>
      current_value * (path.map (fun r => 1 + r)).prod)), g1)
  else (Except.error PyErr.valueError, g1)

/-- Modelled: `horizon_days` draws from `np.random.normal(mean, vol, ...)`
for one simulated path; `scale` carries the fitted sample variance. -/
def normalVec (mean scale : ℚ) : ℕ → ℕ → List ℚ × ℕ
  | 0, s => ([], s)
  | h + 1, s =>
      let s1 := lcg s
      let (vs, s2) := normalVec mean scale h s1
      ((mean + scale * lcgDraw s1) :: vs, s2)

/-- Modelled: the `(n_simulations × horizon_days)` grid of
`np.random.normal(mean, vol, size=(n, h))`. -/
def normalMat (mean scale : ℚ) : ℕ → ℕ → ℕ → List (List ℚ) × ℕ
  | 0, _, s => ([], s)
  | n + 1, h, s =>
      let (r, s1) := normalVec mean scale h s
      let (rs, s2) := normalMat mean scale n h s1
      (r :: rs, s2)

/-- The grid of simulated daily returns drawn inside
`simulate_single_asset_paths` for given inputs: fitted from the return
history of the price series and the seeded generator state. -/
def simulatedReturnsOf (prices : List ℚ) (n h seed : ℕ) : List (List ℚ) :=
  (normalMat (listMean (pctChange prices))
    (covPair (pctChange prices) (pctChange prices)) n h (npSeed seed)).1

/-- Embedding of `simulate_single_asset_paths` (simulation.py lines
71-120): seed the generator, fit mean/volatility from the price history,
draw the return grid, and build each path with column `0 = current_price`
and column `t+1 = column t * (1 + draw)` — the Python loop over `t` is the
`scanl` of that recurrence along each row of draws. -/
def simulate_single_asset_paths (g : ℕ) (prices : List ℚ) (current_price : ℚ)
    (horizon_days n_simulations random_seed : ℕ) : List (List ℚ) × ℕ :=
  let g0 := npSeed random_seed
  let returns := pctChange prices
  let (simulated_returns, g1) :=
    normalMat (listMean returns) (covPair returns returns) n_simulations horizon_days g0
  (simulated_returns.map (fun row =>
    List.scanl (fun p d => p * (1 + d)) current_price row), g1)

/-- Embedding of the statistics dict of `calculate_simulation_statistics`
(simulation.py lines 123-172).  `std_value` (a square root, irrational in
general) is not carried: no claim mentions it and every other field is
rational. -/
structure SimulationStatistics where
  mean_value : ℚ
  median_value : ℚ
  percentile_5 : ℚ
  percentile_25 : ℚ
  percentile_50 : ℚ
  percentile_75 : ℚ
  percentile_95 : ℚ
  prob_gain : ℚ
  prob_loss : ℚ
  prob_significant_loss : ℚ
  mean_return : ℚ
  median_return : ℚ
  var_95 : ℚ
  cvar_95 : ℚ
  deriving Repr

/-- Embedding of `calculate_simulation_statistics` (simulation.py lines
123-172): percentiles of the simulated values, `prob_gain` as the fraction
of values strictly above `current_value`, `prob_loss = 1 - prob_gain`
(ties therefore count as losses), `prob_significant_loss` as the fraction
strictly below `0.95 * current_value`, and the empirical 95% VaR/CVaR off
the simulated sample. -/
def calculate_simulation_statistics (simulated_values : List ℚ) (current_value : ℚ) :
    SimulationStatistics :=
  let p5 := percentileLinear simulated_values 5
  let p25 := percentileLinear simulated_values 25
  let p50 := percentileLinear simulated_values 50
  let p75 := percentileLinear simulated_values 75
  let p95 := percentileLinear simulated_values 95
  let n : ℚ := (simulated_values.length : ℚ)
  let prob_gain :=
    ((simulated_values.filter (fun x => decide (current_value < x))).length : ℚ) / n
  let simulated_returns := simulated_values.map (fun v => (v - current_value) / current_value)
  { mean_value := listMean simulated_values
    median_value := p50
    percentile_5 := p5
    percentile_25 := p25
    percentile_50 := p50
    percentile_75 := p75
    percentile_95 := p95
    prob_gain := prob_gain
    prob_loss := 1 - prob_gain
    prob_significant_loss :=
      ((simulated_values.filter (fun x => decide (x < current_value * (95 / 100)))).length : ℚ) / n
    mean_return := listMean simulated_returns
    median_return := percentileLinear simulated_returns 50
    var_95 := p5
    cvar_95 := listMean (simulated_values.filter (fun x => decide (x ≤ p5))) }

/-! Helper lemmas. -/

/-- Sum of a list mapped through division-then-scaling. -/
theorem sum_map_div_mul (l : List ℚ) (V : ℚ) :
    (l.map (fun c => c / V * 100)).sum = l.sum / V * 100 := by
  induction l with
  | nil => simp
  | cons a t ih =>
      simp only [List.map_cons, List.sum_cons, ih]
      ring

/-- Sum of a list mapped through division by a fixed scalar. -/
theorem sum_map_div {α : Type} (l : List α) (f : α → ℚ) (c : ℚ) :
    (l.map (fun x => f x / c)).sum = (l.map f).sum / c := by
  induction l with
  | nil => simp
  | cons a t ih =>
      simp only [List.map_cons, List.sum_cons, ih]
      rw [add_div]

/-- Mean of a nonempty list bounded above by a bound on its elements. -/
theorem mean_le_of_forall_le (l : List ℚ) (b : ℚ) (hne : l ≠ [])
    (h : ∀ x ∈ l, x ≤ b) : listMean l ≤ b := by
  have hlen : 0 < l.length := List.length_pos.mpr hne
  have hsum : l.sum ≤ (l.length : ℚ) * b := by
    have := List.sum_le_card_nsmul l b h
    simpa [nsmul_eq_mul] using this
  unfold listMean
  rw [div_le_iff₀ (by exact_mod_cast hlen)]
  linarith

/-- Reading a mapped list at an in-range index. -/
theorem getD_map_lt {α β : Type} (l : List α) (f : α → β) (d : β) (d' : α)
    (i : ℕ) (hi : i < l.length) : (l.map f).getD i d = f (l.getD i d') := by
  rw [List.getD_eq_getElem _ d (by simpa using hi), List.getD_eq_getElem _ d' hi,
    List.getElem_map]

/-! Claim theorems. -/

/-- C10: for an out-of-range integer index (negative or at least the number
of holdings) `remove_holding` leaves the holdings unchanged and raises
nothing; for an in-range index it removes exactly the holding at that
position, keeping all other holdings in order. -/
theorem remove_holding_frame (holdings : List Holding) (index : ℤ) :
    ((index < 0 ∨ (holdings.length : ℤ) ≤ index) →
      remove_holding holdings index = holdings) ∧
    (0 ≤ index → index < (holdings.length : ℤ) →
      remove_holding holdings index =
        holdings.take index.toNat ++ holdings.drop (index.toNat + 1)) := by
  constructor
  · intro h
    unfold remove_holding
    rw [if_neg]
    rintro ⟨h0, h1⟩
    rcases h with h | h <;> omega
  · intro h0 h1
    unfold remove_holding
    rw [if_pos ⟨h0, h1⟩]
    exact List.eraseIdx_eq_take_drop_succ holdings index.toNat

/-- Witness for C10 at a concrete two-holding portfolio: index `-1` is a
no-op and index `0` removes exactly the first holding. -/
theorem remove_holding_frame_witness :
    remove_holding [⟨⟨[Char.ofNat 65]⟩, 1, 2, 2⟩, ⟨⟨[Char.ofNat 66]⟩, 3, 4, 12⟩] (-1) =
      [⟨⟨[Char.ofNat 65]⟩, 1, 2, 2⟩, ⟨⟨[Char.ofNat 66]⟩, 3, 4, 12⟩] ∧
    remove_holding [⟨⟨[Char.ofNat 65]⟩, 1, 2, 2⟩, ⟨⟨[Char.ofNat 66]⟩, 3, 4, 12⟩] 0 =
      [⟨⟨[Char.ofNat 66]⟩, 3, 4, 12⟩] := by
  constructor
  · exact (remove_holding_frame _ _).1 (Or.inl (by decide))
  · have h := (remove_holding_frame
      [⟨⟨[Char.ofNat 65]⟩, 1, 2, 2⟩, ⟨⟨[Char.ofNat 66]⟩, 3, 4, 12⟩] 0).2
      (by decide) (by decide)
    simpa using h

/-- C2: `simulate_portfolio_outcomes` is a function of its arguments alone:
the incoming state of the (explicitly modelled) numpy global generator is
overwritten by the explicit `np.random.seed(random_seed)` call, so two
invocations with identical arguments return identical outputs regardless
of any ambient generator state left behind by earlier calls. -/
theorem simulate_portfolio_outcomes_deterministic
    (g g' : ℕ) (prices : List (List ℚ)) (weights : List ℚ) (current_value : ℚ)
    (horizon_days n_simulations random_seed : ℕ) :
    simulate_portfolio_outcomes g prices weights current_value
        horizon_days n_simulations random_seed =
      simulate_portfolio_outcomes g' prices weights current_value
        horizon_days n_simulations random_seed := rfl

/-- C5 amended: `calculate_risk_contribution` with a weight vector whose
length differs from the asset count always fails, but with numpy's untyped
`ValueError` from the matrix-vector product — no `DimensionMismatchError`
class exists in the repository. -/
theorem risk_contribution_mismatch_raises (prices : List (List ℚ)) (weights : List ℚ)
    (h : weights.length ≠ prices.length) :
    calculate_risk_contribution prices weights = Except.error PyErr.valueError := by
  unfold calculate_risk_contribution
  rw [if_neg h]

/-- Witness for the amended C5 at a concrete mismatched input: two assets,
three weights. -/
theorem risk_contribution_mismatch_raises_witness :
    calculate_risk_contribution [[1, 2], [1, 3]] [1, 0, 0] =
      Except.error PyErr.valueError :=
  risk_contribution_mismatch_raises [[1, 2], [1, 3]] [1, 0, 0] (by decide)

/-- C5 counterexample: on a concrete mismatched input the function fails
with the untyped `valueError`, not with the `DimensionMismatchError` the
claim names (that error class does not exist in the code). -/
theorem risk_contribution_mismatch_counterexample :
    calculate_risk_contribution [[1, 2], [1, 3]] [1, 2, 3] =
      Except.error PyErr.valueError ∧
    calculate_risk_contribution [[1, 2], [1, 3]] [1, 2, 3] ≠
      Except.error PyErr.dimensionMismatchError := by
  have h : calculate_risk_contribution [[1, 2], [1, 3]] [1, 2, 3] =
      Except.error PyErr.valueError := by
    unfold calculate_risk_contribution
    rw [if_neg (by decide)]
  refine ⟨h, ?_⟩
  rw [h]
  simp

/-- C7 amended: for a rectangular nonempty price matrix with `R` rows and a
matching weight vector, the returns pipeline of
`calculate_portfolio_returns` succeeds and yields exactly `R - 1` return
rows; in particular one return row for two price rows, and zero return
rows — silently, with no `InsufficientDataError`, a class that does not
exist in the repository — for a single price row. -/
theorem portfolio_returns_row_count (prices : List (List ℚ)) (weights : List ℚ)
    (R : ℕ) (hne : prices ≠ []) (hrect : ∀ c ∈ prices, c.length = R)
    (hw : weights.length = prices.length) :
    ∃ out, calculate_portfolio_returns prices weights = Except.ok out ∧
      out.length = R - 1 := by
  unfold calculate_portfolio_returns
  rw [if_pos hw]
  refine ⟨_, rfl, ?_⟩
  have hh : (prices.headD []).length = R := by
    cases prices with
    | nil => exact absurd rfl hne
    | cons c cs => exact hrect c (List.mem_cons_self _ _)
  rw [List.length_map, List.length_range, hh]

/-- Witness for the amended C7: a concrete two-row, two-asset matrix yields
exactly one return row without error. -/
theorem portfolio_returns_row_count_witness :
    ∃ out, calculate_portfolio_returns [[100, 110], [50, 55]] [1/2, 1/2] =
      Except.ok out ∧ out.length = 2 - 1 :=
  portfolio_returns_row_count [[100, 110], [50, 55]] [1/2, 1/2] 2
    (by decide) (by decide) (by decide)

/-- C7 counterexample: a one-row price matrix makes the returns engine
return an empty series wrapped in a successful result — it does not raise
`InsufficientDataError` (nor anything else). -/
theorem portfolio_returns_single_row_counterexample :
    calculate_portfolio_returns [[100], [50]] [1/2, 1/2] = Except.ok [] ∧
    calculate_portfolio_returns [[100], [50]] [1/2, 1/2] ≠
      Except.error PyErr.insufficientDataError := by
  have h : calculate_portfolio_returns [[100], [50]] [1/2, 1/2] = Except.ok [] := by
    unfold calculate_portfolio_returns
    rw [if_pos (by decide)]
    rfl
  refine ⟨h, ?_⟩
  rw [h]
  simp

/-- C6 counterexample: at confidence exactly 0 and exactly 1 both
`calculate_var` and `calculate_cvar` return plain values (the sample
maximum, respectively minimum, for VaR) instead of failing — in particular
not with the `InvalidParameterError` the claim names, a class that does not
exist in the repository. -/
theorem var_confidence_endpoints_counterexample :
    calculate_var [1, 2, 3] 0 = Except.ok 3 ∧
    calculate_var [1, 2, 3] 1 = Except.ok 1 ∧
    calculate_cvar [1, 2, 3] 1 = Except.ok 1 ∧
    calculate_var [1, 2, 3] 0 ≠ Except.error PyErr.invalidParameterError := by
  have h0 : calculate_var [1, 2, 3] 0 = Except.ok 3 := by
    simp only [calculate_var]
    rw [if_neg (by decide), if_neg (by norm_num)]
    norm_num [percentileLinear, (show ((2:ℤ)).toNat = 2 from rfl)]
  have h1 : calculate_var [1, 2, 3] 1 = Except.ok 1 := by
    simp only [calculate_var]
    rw [if_neg (by decide), if_neg (by norm_num)]
    norm_num [percentileLinear]
  have h2 : calculate_cvar [1, 2, 3] 1 = Except.ok 1 := by
    unfold calculate_cvar
    rw [h1]
    norm_num [List.filter, listMean]
  refine ⟨h0, h1, h2, ?_⟩
  rw [h0]
  simp

/-- C6 amended: no validation of the confidence level is performed; for
every nonempty return series, confidence exactly 0 and exactly 1 both make
`calculate_var` and `calculate_cvar` return ordinary values (the 100th and
0th linear-interpolated percentile and the corresponding tail means)
rather than fail with `InvalidParameterError`. -/
theorem var_cvar_no_confidence_validation (returns : List ℚ) (hne : returns ≠ []) :
    (∃ x, calculate_var returns 0 = Except.ok x) ∧
    (∃ x, calculate_var returns 1 = Except.ok x) ∧
    (∃ x, calculate_cvar returns 0 = Except.ok x) ∧
    (∃ x, calculate_cvar returns 1 = Except.ok x) := by
  have h0 : calculate_var returns 0 =
      Except.ok (percentileLinear returns ((1 - 0) * 100)) := by
    simp only [calculate_var]
    rw [if_neg hne, if_neg (by norm_num)]
  have h1 : calculate_var returns 1 =
      Except.ok (percentileLinear returns ((1 - 1) * 100)) := by
    simp only [calculate_var]
    rw [if_neg hne, if_neg (by norm_num)]
  refine ⟨⟨_, h0⟩, ⟨_, h1⟩, ?_, ?_⟩
  · refine ⟨listMean (returns.filter
      (fun x => decide (x ≤ percentileLinear returns ((1 - 0) * 100)))), ?_⟩
    unfold calculate_cvar
    rw [h0]
  · refine ⟨listMean (returns.filter
      (fun x => decide (x ≤ percentileLinear returns ((1 - 1) * 100)))), ?_⟩
    unfold calculate_cvar
    rw [h1]

/-- Witness for the amended C6 at a concrete three-element series. -/
theorem var_cvar_no_confidence_validation_witness :
    (∃ x, calculate_var [1, 2, 3] 0 = Except.ok x) ∧
    (∃ x, calculate_var [1, 2, 3] 1 = Except.ok x) ∧
    (∃ x, calculate_cvar [1, 2, 3] 0 = Except.ok x) ∧
    (∃ x, calculate_cvar [1, 2, 3] 1 = Except.ok x) :=
  var_cvar_no_confidence_validation [1, 2, 3] (by decide)

/-- C1: whenever the weight vector matches a price matrix of at least two
assets and the portfolio variance `wᵀΣw` is positive,
`calculate_risk_contribution` succeeds and its percentages sum to exactly
100 (in exact arithmetic, hence within any floating-point tolerance): the
component contributions `w_i (Σw)_i` sum to the portfolio variance. -/
theorem risk_contribution_percentages_sum_to_100
    (prices : List (List ℚ)) (weights : List ℚ)
    (hassets : 2 ≤ prices.length) (hw : weights.length = prices.length)
    (hvar : 0 < portfolioVariance prices weights) :
    ∃ out, calculate_risk_contribution prices weights = Except.ok out ∧
      out.sum = 100 := by
  have heq : calculate_risk_contribution prices weights =
      Except.ok ((List.zipWith (fun w m => w * m) weights
          (marginalContrib prices weights)).map
        (fun c => c / portfolioVariance prices weights * 100)) := by
    unfold calculate_risk_contribution
    rw [if_pos hw]
  refine ⟨_, heq, ?_⟩
  rw [sum_map_div_mul]
  have hsum : (List.zipWith (fun w m => w * m) weights
      (marginalContrib prices weights)).sum = portfolioVariance prices weights := rfl
  rw [hsum, div_self (ne_of_gt hvar), one_mul]

/-- Witness for C1 at a concrete two-asset price matrix with positive
portfolio variance and equal weights. -/
theorem risk_contribution_percentages_sum_to_100_witness :
    ∃ out, calculate_risk_contribution [[1, 2, 3], [1, 3, 4]] [1/2, 1/2] =
      Except.ok out ∧ out.sum = 100 :=
  risk_contribution_percentages_sum_to_100 [[1, 2, 3], [1, 3, 4]] [1/2, 1/2]
    (by decide) (by decide)
    (by norm_num [portfolioVariance, marginalContrib, covMatrixOf, covPair,
      pctChange, listMean, dotProduct])

/-- C9: `calculate_weights` always returns one entry per holding; when the
current total value is positive, any holding whose symbol has no quote has
weight exactly `0.0` and the entries sum to exactly 1 (the quoted holdings
renormalize against the quoted-only total); when the total is zero it
returns the all-zero vector of that length. -/
theorem calculate_weights_spec (holdings : List Holding) (quotes : List (String × ℚ)) :
    (calculate_weights holdings quotes).length = holdings.length ∧
    (0 < calculate_current_value holdings quotes →
      ((∀ i, (hi : i < holdings.length) →
          List.lookup (holdings[i].symbol) quotes = none →
          (calculate_weights holdings quotes).getD i 1 = 0) ∧
        (calculate_weights holdings quotes).sum = 1)) ∧
    (calculate_current_value holdings quotes = 0 →
      calculate_weights holdings quotes = List.replicate holdings.length 0) := by
  refine ⟨?_, ?_, ?_⟩
  · unfold calculate_weights
    by_cases h : calculate_current_value holdings quotes = 0
    · rw [if_pos h, List.length_replicate]
    · rw [if_neg h, List.length_map]
  · intro hpos
    have hne : calculate_current_value holdings quotes ≠ 0 := ne_of_gt hpos
    constructor
    · intro i hi hlk
      unfold calculate_weights
      rw [if_neg hne, getD_map_lt holdings _ 1 (holdings[i]) i hi,
        List.getD_eq_getElem _ _ hi, hlk]
    · unfold calculate_weights
      rw [if_neg hne]
      have hcong : holdings.map (fun h =>
          match List.lookup h.symbol quotes with
          | some p => h.shares * p / calculate_current_value holdings quotes
          | none => 0) =
          holdings.map (fun h =>
            holdingValue quotes h / calculate_current_value holdings quotes) := by
        refine List.map_congr_left (fun h _ => ?_)
        unfold holdingValue
        cases hc : List.lookup h.symbol quotes with
        | none => simp
        | some p => rfl
      rw [hcong, sum_map_div]
      exact div_self hne
  · intro h0
    unfold calculate_weights
    rw [if_pos h0]

/-- Witness for C9: a two-holding portfolio with one quoted and one
unquoted symbol has positive total value and weights summing to exactly 1,
with weight 0 at the unquoted position. -/
theorem calculate_weights_spec_witness :
    (calculate_weights
        [⟨⟨[Char.ofNat 65]⟩, 1, 1, 1⟩, ⟨⟨[Char.ofNat 66]⟩, 2, 1, 2⟩]
        [(⟨[Char.ofNat 65]⟩, 10)]).sum = 1 :=
  ((calculate_weights_spec
      [⟨⟨[Char.ofNat 65]⟩, 1, 1, 1⟩, ⟨⟨[Char.ofNat 66]⟩, 2, 1, 2⟩]
      [(⟨[Char.ofNat 65]⟩, 10)]).2.1
    (by norm_num [calculate_current_value, holdingValue, List.lookup,
      (show ((⟨[Char.ofNat 66]⟩ : String) == (⟨[Char.ofNat 65]⟩ : String)) = false
        by decide),
      (show ((⟨[Char.ofNat 65]⟩ : String) == (⟨[Char.ofNat 65]⟩ : String)) = true
        by decide)])).2

/-! Lemmas about the linear-interpolated percentile, for the CVaR/VaR
comparison and the constant-sample median. -/

/-- The interpolation index of `percentileLinear` is a valid position of
the (nonempty) sample whenever the percentile is at most 100. -/
theorem percentile_index_lt (l : List ℚ) (q : ℚ) (hne : l ≠ []) (hq1 : q ≤ 100) :
    (⌊q / 100 * ((l.length : ℚ) - 1)⌋).toNat < l.length := by
  have hlpos : 0 < l.length := List.length_pos.mpr hne
  have hn1 : (0:ℚ) ≤ (l.length : ℚ) - 1 := by
    have h1 : (1:ℚ) ≤ (l.length : ℚ) := by exact_mod_cast hlpos
    linarith
  by_cases hfl : ⌊q / 100 * ((l.length : ℚ) - 1)⌋ < 0
  · omega
  · push_neg at hfl
    have hq100 : q / 100 ≤ 1 := by
      rw [div_le_one (by norm_num : (0:ℚ) < 100)]
      exact hq1
    have hple : q / 100 * ((l.length : ℚ) - 1) ≤ (l.length : ℚ) - 1 := by
      calc q / 100 * ((l.length : ℚ) - 1) ≤ 1 * ((l.length : ℚ) - 1) :=
            mul_le_mul_of_nonneg_right hq100 hn1
        _ = (l.length : ℚ) - 1 := one_mul _
    have hfloorle : (⌊q / 100 * ((l.length : ℚ) - 1)⌋ : ℚ) < (l.length : ℚ) :=
      lt_of_le_of_lt (le_trans (Int.floor_le _) hple) (by linarith)
    have hzz : ⌊q / 100 * ((l.length : ℚ) - 1)⌋ < (l.length : ℤ) := by
      exact_mod_cast hfloorle
    omega

/-- A sorted list read at a valid position is bounded by the interpolation
towards the next position. -/
theorem le_interp_of_sorted (s : List ℚ)
    (hsort : List.Sorted (fun a b : ℚ => a ≤ b) s)
    (i : ℕ) (hilt : i < s.length) (frac : ℚ) (hfrac : 0 ≤ frac) :
    s.getD i 0 ≤ s.getD i 0 + frac * (s.getD (i + 1) (s.getD i 0) - s.getD i 0) := by
  have hhl : s.getD i 0 ≤ s.getD (i + 1) (s.getD i 0) := by
    by_cases hi1 : i + 1 < s.length
    · rw [List.getD_eq_getElem _ _ hi1, List.getD_eq_getElem _ _ hilt]
      exact List.Sorted.rel_get_of_lt hsort (by simp)
    · rw [List.getD_eq_default _ _ (le_of_not_lt hi1)]
  nlinarith

/-- Some element of a nonempty sample lies at or below its
linear-interpolated percentile (namely the lower order statistic the
interpolation starts from). -/
theorem percentile_ge_element (l : List ℚ) (q : ℚ) (hne : l ≠ []) (hq1 : q ≤ 100) :
    ∃ x ∈ l, x ≤ percentileLinear l q := by
  have hilt : (⌊q / 100 * ((l.length : ℚ) - 1)⌋).toNat <
      (List.insertionSort (fun a b : ℚ => a ≤ b) l).length := by
    rw [(List.perm_insertionSort _ l).length_eq]
    exact percentile_index_lt l q hne hq1
  refine ⟨(List.insertionSort (fun a b : ℚ => a ≤ b) l).getD
      ((⌊q / 100 * ((l.length : ℚ) - 1)⌋).toNat) 0, ?_, ?_⟩
  · rw [← (List.perm_insertionSort (fun a b : ℚ => a ≤ b) l).mem_iff,
      List.getD_eq_getElem _ _ hilt]
    exact List.getElem_mem hilt
  · have hfrac : 0 ≤ q / 100 * ((l.length : ℚ) - 1) -
        ((⌊q / 100 * ((l.length : ℚ) - 1)⌋ : ℤ) : ℚ) := by
      have hle := Int.floor_le (q / 100 * ((l.length : ℚ) - 1))
      linarith
    have key := le_interp_of_sorted (List.insertionSort (fun a b : ℚ => a ≤ b) l)
      (List.sorted_insertionSort _ l) ((⌊q / 100 * ((l.length : ℚ) - 1)⌋).toNat)
      hilt _ hfrac
    simpa only [percentileLinear] using key

/-- C3: for every nonempty return series and confidence strictly inside
(0,1), both `calculate_var` and `calculate_cvar` succeed and the CVaR is at
most the VaR as raw signed returns: the tail mean averages values that all
lie at or below the percentile threshold. -/
theorem cvar_le_var (returns : List ℚ) (c : ℚ) (hne : returns ≠ [])
    (h0 : 0 < c) (h1 : c < 1) :
    ∃ v cv, calculate_var returns c = Except.ok v ∧
      calculate_cvar returns c = Except.ok cv ∧ cv ≤ v := by
  have hq1 : (1 - c) * 100 ≤ 100 := by nlinarith
  have hqok : ¬((1 - c) * 100 < 0 ∨ 100 < (1 - c) * 100) := by
    push_neg
    exact ⟨by nlinarith, hq1⟩
  have hvar : calculate_var returns c =
      Except.ok (percentileLinear returns ((1 - c) * 100)) := by
    simp only [calculate_var]
    rw [if_neg hne, if_neg hqok]
  obtain ⟨x0, hx0mem, hx0le⟩ := percentile_ge_element returns ((1 - c) * 100) hne hq1
  have hfil : x0 ∈ returns.filter
      (fun x => decide (x ≤ percentileLinear returns ((1 - c) * 100))) :=
    List.mem_filter.mpr ⟨hx0mem, decide_eq_true hx0le⟩
  have hfilne := List.ne_nil_of_mem hfil
  have hble : ∀ y ∈ returns.filter
      (fun x => decide (x ≤ percentileLinear returns ((1 - c) * 100))),
      y ≤ percentileLinear returns ((1 - c) * 100) :=
    fun y hy => of_decide_eq_true (List.mem_filter.mp hy).2
  refine ⟨percentileLinear returns ((1 - c) * 100),
    listMean (returns.filter
      (fun x => decide (x ≤ percentileLinear returns ((1 - c) * 100)))),
    hvar, ?_, ?_⟩
  · unfold calculate_cvar
    rw [hvar]
  · exact mean_le_of_forall_le _ _ hfilne hble

/-- Witness for C3 at a concrete three-element return series and 50%
confidence. -/
theorem cvar_le_var_witness :
    ∃ v cv, calculate_var [1, -1, 2] (1/2) = Except.ok v ∧
      calculate_cvar [1, -1, 2] (1/2) = Except.ok cv ∧ cv ≤ v :=
  cvar_le_var [1, -1, 2] (1/2) (by decide) (by norm_num) (by norm_num)

/-- The linear-interpolated percentile of a constant sample is the
constant. -/
theorem percentile_const (l : List ℚ) (v q : ℚ) (hne : l ≠ [])
    (hall : ∀ x ∈ l, x = v) (hq1 : q ≤ 100) : percentileLinear l q = v := by
  have hilt : (⌊q / 100 * ((l.length : ℚ) - 1)⌋).toNat <
      (List.insertionSort (fun a b : ℚ => a ≤ b) l).length := by
    rw [(List.perm_insertionSort _ l).length_eq]
    exact percentile_index_lt l q hne hq1
  have hsall : ∀ x ∈ List.insertionSort (fun a b : ℚ => a ≤ b) l, x = v :=
    fun x hx => hall x ((List.perm_insertionSort _ l).mem_iff.mp hx)
  have hlo : (List.insertionSort (fun a b : ℚ => a ≤ b) l).getD
      ((⌊q / 100 * ((l.length : ℚ) - 1)⌋).toNat) 0 = v := by
    rw [List.getD_eq_getElem _ _ hilt]
    exact hsall _ (List.getElem_mem hilt)
  have hhi : (List.insertionSort (fun a b : ℚ => a ≤ b) l).getD
      ((⌊q / 100 * ((l.length : ℚ) - 1)⌋).toNat + 1)
      ((List.insertionSort (fun a b : ℚ => a ≤ b) l).getD
        ((⌊q / 100 * ((l.length : ℚ) - 1)⌋).toNat) 0) = v := by
    by_cases hi1 : (⌊q / 100 * ((l.length : ℚ) - 1)⌋).toNat + 1 <
        (List.insertionSort (fun a b : ℚ => a ≤ b) l).length
    · rw [List.getD_eq_getElem _ _ hi1]
      exact hsall _ (List.getElem_mem hi1)
    · rw [List.getD_eq_default _ _ (le_of_not_lt hi1)]
      exact hlo
  simp only [percentileLinear]
  rw [hhi, hlo]
  ring

/-- C4 amended: on a simulated-value array all of whose entries equal
`current_value` exactly, `calculate_simulation_statistics` yields
`prob_gain = 0` (strict inequality, no gain counted), `median_value =
current_value`, but `prob_loss = 1`, not 0: the code defines `prob_loss`
as `1 - prob_gain`, so ties count as losses. -/
theorem simulation_statistics_all_equal (v : ℚ) (l : List ℚ) (hne : l ≠ [])
    (hall : ∀ x ∈ l, x = v) :
    (calculate_simulation_statistics l v).prob_gain = 0 ∧
    (calculate_simulation_statistics l v).prob_loss = 1 ∧
    (calculate_simulation_statistics l v).median_value = v := by
  have hng : l.filter (fun x => decide (v < x)) = [] :=
    List.filter_eq_nil_iff.mpr (fun a ha => by
      rw [hall a ha]
      simp)
  have hpg : (calculate_simulation_statistics l v).prob_gain = 0 := by
    simp only [calculate_simulation_statistics]
    rw [hng]
    simp
  refine ⟨hpg, ?_, ?_⟩
  · have hpl : (calculate_simulation_statistics l v).prob_loss =
        1 - (calculate_simulation_statistics l v).prob_gain := rfl
    rw [hpl, hpg, sub_zero]
  · have hmv : (calculate_simulation_statistics l v).median_value =
        percentileLinear l 50 := rfl
    rw [hmv]
    exact percentile_const l v 50 hne hall (by norm_num)

/-- Witness for the amended C4 on a constant three-element sample. -/
theorem simulation_statistics_all_equal_witness :
    (calculate_simulation_statistics (List.replicate 3 (100:ℚ)) 100).prob_gain = 0 ∧
    (calculate_simulation_statistics (List.replicate 3 (100:ℚ)) 100).prob_loss = 1 ∧
    (calculate_simulation_statistics (List.replicate 3 (100:ℚ)) 100).median_value = 100 :=
  simulation_statistics_all_equal 100 (List.replicate 3 100) (by decide)
    (fun x hx => (List.mem_replicate.mp hx).2)

/-- C4 counterexample: on the concrete all-equal array `[100, 100, 100]`
with current value 100, `prob_loss` is not 0 (it is `1 - prob_gain = 1`),
contradicting the claim that both probabilities are 0. -/
theorem simulation_statistics_ties_counterexample :
    (calculate_simulation_statistics [100, 100, 100] 100).prob_loss ≠ 0 := by
  have h : (calculate_simulation_statistics [100, 100, 100] 100).prob_loss = 1 := by
    norm_num [calculate_simulation_statistics, List.filter]
  rw [h]
  norm_num

/-! Lemmas about the modelled Gaussian draw grids and the path recurrence. -/

/-- A modelled normal-draw row has exactly the requested number of draws. -/
theorem normalVec_fst_length (mean scale : ℚ) (h s : ℕ) :
    ((normalVec mean scale h s).1).length = h := by
  induction h generalizing s with
  | zero => rfl
  | succ k ih =>
      cases hvp : normalVec mean scale k (lcg s) with
      | mk vs s2 =>
          have hlen : vs.length = k := by
            have hk := ih (lcg s)
            rw [hvp] at hk
            exact hk
          simp [normalVec, hvp, hlen]

/-- The modelled normal-draw grid has exactly the requested number of
rows. -/
theorem normalMat_fst_length (mean scale : ℚ) (n h s : ℕ) :
    ((normalMat mean scale n h s).1).length = n := by
  induction n generalizing s with
  | zero => rfl
  | succ k ih =>
      cases hv : normalVec mean scale h s with
      | mk r s1 =>
          cases hm : normalMat mean scale k h s1 with
          | mk rs s2 =>
              have hlen : rs.length = k := by
                have hk := ih s1
                rw [hm] at hk
                exact hk
              simp [normalMat, hv, hm, hlen]

/-- Every row of the modelled normal-draw grid has exactly the requested
number of draws. -/
theorem normalMat_fst_rows (mean scale : ℚ) (n h s : ℕ) :
    ∀ row ∈ (normalMat mean scale n h s).1, row.length = h := by
  induction n generalizing s with
  | zero => intro row hrow; exact absurd hrow (by simp [normalMat])
  | succ k ih =>
      intro row hrow
      cases hv : normalVec mean scale h s with
      | mk r s1 =>
          cases hm : normalMat mean scale k h s1 with
          | mk rs s2 =>
              rw [show (normalMat mean scale (k+1) h s).1 = r :: rs by
                simp [normalMat, hv, hm]] at hrow
              rcases List.mem_cons.mp hrow with hre | hrm
              · rw [hre]
                have hr := normalVec_fst_length mean scale h s
                rw [hv] at hr
                exact hr
              · have hk := ih s1 row
                rw [hm] at hk
                exact hk hrm

/-- The head of the compounded path is the starting value. -/
theorem scanl_step_getD_zero (b : ℚ) (l : List ℚ) :
    (List.scanl (fun p d => p * (1 + d)) b l).getD 0 0 = b := by
  cases l <;> rfl

/-- One step of the compounded path: position `t+1` is position `t`
multiplied by one plus the `t`-th draw. -/
theorem scanl_step_getD_succ (l : List ℚ) (b : ℚ) (t : ℕ) (ht : t < l.length) :
    (List.scanl (fun p d => p * (1 + d)) b l).getD (t + 1) 0 =
      (List.scanl (fun p d => p * (1 + d)) b l).getD t 0 * (1 + l.getD t 0) := by
  induction l generalizing b t with
  | nil => exact absurd ht (by simp)
  | cons a tl ih =>
      cases t with
      | zero =>
          rw [show List.scanl (fun p d => p * (1 + d)) b (a :: tl) =
              b :: List.scanl (fun p d => p * (1 + d)) (b * (1 + a)) tl from rfl,
            List.getD_cons_succ, List.getD_cons_zero, List.getD_cons_zero,
            scanl_step_getD_zero]
      | succ t' =>
          have ht' : t' < tl.length := Nat.lt_of_succ_lt_succ (by simpa using ht)
          rw [show List.scanl (fun p d => p * (1 + d)) b (a :: tl) =
              b :: List.scanl (fun p d => p * (1 + d)) (b * (1 + a)) tl from rfl,
            List.getD_cons_succ, List.getD_cons_succ, List.getD_cons_succ]
          exact ih (b * (1 + a)) t' ht'

/-- The value component of `simulate_single_asset_paths` is the compounded
path of each row of the drawn return grid. -/
theorem simulate_single_asset_paths_fst (g : ℕ) (prices : List ℚ)
    (current_price : ℚ) (horizon_days n_simulations random_seed : ℕ) :
    (simulate_single_asset_paths g prices current_price horizon_days
        n_simulations random_seed).1 =
      (simulatedReturnsOf prices n_simulations horizon_days random_seed).map
        (fun row => List.scanl (fun p d => p * (1 + d)) current_price row) := rfl

/-- C8: for at least one simulation and a price series with at least two
observations, `simulate_single_asset_paths` returns `n_simulations` paths
of `horizon_days + 1` columns each, every path starts at `current_price`
in column 0, and column `t+1` equals column `t` times one plus the `t`-th
simulated daily return of that path. -/
theorem simulate_single_asset_paths_spec (g : ℕ) (prices : List ℚ)
    (current_price : ℚ) (horizon_days n_simulations random_seed : ℕ)
    (hn : 1 ≤ n_simulations) (hp : 2 ≤ prices.length) :
    ((simulate_single_asset_paths g prices current_price horizon_days
        n_simulations random_seed).1).length = n_simulations ∧
    (∀ row ∈ (simulate_single_asset_paths g prices current_price horizon_days
        n_simulations random_seed).1, row.length = horizon_days + 1) ∧
    (∀ row ∈ (simulate_single_asset_paths g prices current_price horizon_days
        n_simulations random_seed).1, row.getD 0 0 = current_price) ∧
    (∀ r t, r < n_simulations → t < horizon_days →
      (((simulate_single_asset_paths g prices current_price horizon_days
          n_simulations random_seed).1).getD r []).getD (t + 1) 0 =
        (((simulate_single_asset_paths g prices current_price horizon_days
            n_simulations random_seed).1).getD r []).getD t 0 *
          (1 + ((simulatedReturnsOf prices n_simulations horizon_days
              random_seed).getD r []).getD t 0)) := by
  rw [simulate_single_asset_paths_fst]
  have hdlen : (simulatedReturnsOf prices n_simulations horizon_days
      random_seed).length = n_simulations := by
    unfold simulatedReturnsOf
    exact normalMat_fst_length _ _ _ _ _
  have hdrows : ∀ row ∈ simulatedReturnsOf prices n_simulations horizon_days
      random_seed, row.length = horizon_days := by
    unfold simulatedReturnsOf
    exact normalMat_fst_rows _ _ _ _ _
  refine ⟨?_, ?_, ?_, ?_⟩
  · rw [List.length_map, hdlen]
  · intro row hrow
    obtain ⟨r0, hr0mem, hr0eq⟩ := List.mem_map.mp hrow
    rw [← hr0eq, List.length_scanl, hdrows r0 hr0mem]
  · intro row hrow
    obtain ⟨r0, hr0mem, hr0eq⟩ := List.mem_map.mp hrow
    rw [← hr0eq, scanl_step_getD_zero]
  · intro r t hr ht
    have hrlen : r < (simulatedReturnsOf prices n_simulations horizon_days
        random_seed).length := by
      rw [hdlen]
      exact hr
    rw [getD_map_lt _ _ [] [] r hrlen]
    have hmemrow : (simulatedReturnsOf prices n_simulations horizon_days
        random_seed).getD r [] ∈ simulatedReturnsOf prices n_simulations
        horizon_days random_seed := by
      rw [List.getD_eq_getElem _ _ hrlen]
      exact List.getElem_mem hrlen
    have htlen : t < ((simulatedReturnsOf prices n_simulations horizon_days
        random_seed).getD r []).length := by
      rw [hdrows _ hmemrow]
      exact ht
    exact scanl_step_getD_succ _ current_price t htlen

/-- Witness for C8: one simulation, one day, a two-point price history. -/
theorem simulate_single_asset_paths_spec_witness :
    ((simulate_single_asset_paths 0 [1, 2] 5 1 1 0).1).length = 1 ∧
    (∀ row ∈ (simulate_single_asset_paths 0 [1, 2] 5 1 1 0).1,
      row.length = 1 + 1) ∧
    (∀ row ∈ (simulate_single_asset_paths 0 [1, 2] 5 1 1 0).1,
      row.getD 0 0 = 5) ∧
    (∀ r t, r < 1 → t < 1 →
      (((simulate_single_asset_paths 0 [1, 2] 5 1 1 0).1).getD r []).getD (t + 1) 0 =
        (((simulate_single_asset_paths 0 [1, 2] 5 1 1 0).1).getD r []).getD t 0 *
          (1 + ((simulatedReturnsOf [1, 2] 1 1 0).getD r []).getD t 0)) :=
  simulate_single_asset_paths_spec 0 [1, 2] 5 1 1 0 (by decide) (by decide)
